import Mathlib

/-!
Verification of the LOGIA multi-agent dispatcher against its specification.

This development gives a shallow embedding, in Lean, of the registry,
routing, client, dashboard, and specialist-pipeline logic found in
src/mcp/server.py, src/agents/food_delay_agent.py,
src/agents/rerouting_agent.py and src/agents/safety_agent_vosk.py, and
proves the stated contract properties about these embedded definitions.

Conventions used throughout:
- Python dictionaries produced by json decoding are modelled by the
  inductive type Json below; dictionary access follows Python semantics
  (dict.get with defaults, truthiness, membership).
- Fallible Python code (code that can raise) is modelled with
  Except String, the error string naming the exception.
- Machine integers and floats do not occur in the embedded fragments in
  any overflow-relevant way; ratings are modelled by rationals.
-/

set_option linter.unusedVariables false

namespace Logia

/-- JSON values as decoded by response.json() or json.loads. Objects keep
their key/value pairs in insertion order, as Python dicts do; keys are
unique in every object this system builds. -/
inductive Json where
  | null
  | bool (b : Bool)
  | num (q : ℚ)
  | str (s : String)
  | arr (xs : List Json)
  | obj (kvs : List (String × Json))

/-- First value bound to a key in an association list (Python dict lookup;
keys are unique so first match is the match). -/
def lookupId {α : Type} : List (String × α) → String → Option α
  | [], _ => none
  | (k, v) :: rest, key => if k == key then some v else lookupId rest key

/-- Python dict.get(key) on a JSON value: some value when the receiver is
an object holding the key, none when the key is absent; none for
non-objects (callers that may receive non-objects are modelled with
pyGetDefault instead, which records the raised AttributeError). -/
def Json.get? : Json → String → Option Json
  | .obj kvs, k => lookupId kvs k
  | _, _ => none

/-- Python truthiness of a JSON value. -/
def Json.truthy : Json → Bool
  | .null => false
  | .bool b => b
  | .num q => decide (q ≠ 0)
  | .str s => decide (s ≠ "")
  | .arr xs => !xs.isEmpty
  | .obj kvs => !kvs.isEmpty

/-- Whether the characters pat occur as a prefix of s. -/
def charsStartWith : List Char → List Char → Bool
  | [], _ => true
  | _ :: _, [] => false
  | a :: as, b :: bs => a == b && charsStartWith as bs

/-- Whether the characters pat occur contiguously inside s. -/
def charsContain (pat s : List Char) : Bool :=
  match s with
  | [] => charsStartWith pat []
  | _ :: rest => charsStartWith pat s || charsContain pat rest

/-- Python substring test: pat in s for strings. -/
def pyContains (s pat : String) : Bool :=
  charsContain pat.data s.data

/-- Python membership k in j. Returns none where Python raises TypeError
(membership on a number, boolean or null); key membership for objects,
element equality for arrays, substring test for strings. -/
def pyKeyMem (k : String) : Json → Option Bool
  | .obj kvs => some (kvs.any (fun p => p.1 == k))
  | .arr xs => some (xs.any (fun j => match j with | .str s => s == k | _ => false))
  | .str s => some (pyContains s k)
  | _ => none

/-- Python j.get(key, default): the bound value or the default for an
object receiver; error (AttributeError) for any other receiver. -/
def pyGetDefault (j : Json) (k : String) (d : Json) : Except String Json :=
  match j with
  | .obj kvs => .ok ((lookupId kvs k).getD d)
  | _ => .error "AttributeError"

/-- Python j[key] subscription: the bound value for an object holding the
key, KeyError when absent, TypeError for non-object receivers. -/
def pySubscript (j : Json) (k : String) : Except String Json :=
  match j with
  | .obj kvs =>
    match lookupId kvs k with
    | some v => .ok v
    | none => .error "KeyError"
  | _ => .error "TypeError"

/-- Python j[0]: first element of an array, IndexError on an empty array,
TypeError otherwise. -/
def pyFirst : Json → Except String Json
  | .arr (x :: _) => .ok x
  | .arr [] => .error "IndexError"
  | _ => .error "TypeError"

/-- Python equality test of a JSON value against a string literal. -/
def isStrEq (j : Json) (s : String) : Bool :=
  match j with
  | .str t => t == s
  | _ => false

/-- Python equality of an optional JSON value (dict.get result, possibly
None) against a string literal; None compares unequal. -/
def optIsStr (o : Option Json) (s : String) : Bool :=
  match o with
  | some j => isStrEq j s
  | none => false

/-! ## MCPClient (src/mcp/server.py lines 51-88)

The network behaviour of one POST issued by MCPClient. A request either
fails at the transport layer (httpx.RequestError: connection refused,
timeout, DNS failure), which the client catches, or yields an HTTP
response with a status code and a decoded JSON body. Non-2xx statuses
make response.raise_for_status() raise httpx.HTTPStatusError, which the
client does not catch; that exception is not a transport failure. -/
inductive Transport where
  | reqError (msg : String)
  | response (status : ℕ) (body : Json)

/-- The dictionary MCPClient synthesizes for a transport failure. -/
def errorResponse (msg : String) : Json :=
  .obj [("error", .obj [("message", .str msg)])]

/-- MCPClient sendRequest, embedding of the private method on lines 58-66
of src/mcp/server.py: post the JSON-RPC payload; a transport failure is
caught and turned into the error/message dictionary; an HTTP response is
checked with raise_for_status (2xx passes, anything else raises
HTTPStatusError, modelled as the error case) and its body returned. -/
def sendRequest (method : String) (params : Json) (t : Transport) : Except String Json :=
  match t with
  | .reqError m => .ok (errorResponse m)
  | .response status body =>
    if 200 ≤ status ∧ status < 300 then .ok body else .error "HTTPStatusError"

/-- The capability check performed by MCPClient initialize on line 71 of
src/mcp/server.py: result in response and capabilities in
response[result], with Python membership and subscription semantics. -/
def capabilityCheck (resp : Json) : Except String Bool :=
  match pyKeyMem "result" resp with
  | none => .error "TypeError"
  | some false => .ok false
  | some true =>
    match pySubscript resp "result" with
    | .error e => .error e
    | .ok v =>
      match pyKeyMem "capabilities" v with
      | none => .error "TypeError"
      | some b => .ok b

/-- MCPClient initialize (src/mcp/server.py lines 68-75; the Python name
is a Lean keyword): send the initialize request and report whether the
response carries a result object holding a capabilities entry. -/
def mcpInit (t : Transport) : Except String Bool :=
  match sendRequest "initialize" (.obj [("clientInfo", .obj [("name", .str "LOGIA Host")])]) t with
  | .error e => .error e
  | .ok resp => capabilityCheck resp

/-- The tools extraction performed by MCPClient list_tools on lines 80-84
of src/mcp/server.py: the result.tools value when present, the empty list
otherwise. -/
def toolsCheck (resp : Json) : Except String Json :=
  match pyKeyMem "result" resp with
  | none => .error "TypeError"
  | some false => .ok (.arr [])
  | some true =>
    match pySubscript resp "result" with
    | .error e => .error e
    | .ok v =>
      match pyKeyMem "tools" v with
      | none => .error "TypeError"
      | some false => .ok (.arr [])
      | some true => pySubscript v "tools"

/-- MCPClient list_tools (src/mcp/server.py lines 77-84). -/
def listTools (t : Transport) : Except String Json :=
  match sendRequest "tools/list" (.obj []) t with
  | .error e => .error e
  | .ok resp => toolsCheck resp

/-- MCPClient call_tool (src/mcp/server.py lines 86-88): forwards a
tools/call request and returns the raw decoded response. -/
def callTool (toolName : String) (arguments : Json) (t : Transport) : Except String Json :=
  sendRequest "tools/call" (.obj [("name", .str toolName), ("arguments", arguments)]) t

/-- Shape condition on a decoded response body: a JSON object whose
result entry, when present, is itself an object. Every body the three
specialist servers in this repository produce satisfies it
(handle_rpc_request in each agent file always responds with
jsonrpc/id/result where result is a dict). -/
def resultFieldObjOk : Json → Bool
  | .obj kvs =>
    match lookupId kvs "result" with
    | some (.obj _) => true
    | some _ => false
    | none => true
  | _ => false

/-- The well-formedness that every transport outcome reachable in this
system satisfies: a transport failure, or a 2xx HTTP response whose
decoded body passes the shape condition above. -/
def wellFormedTransport : Transport → Bool
  | .reqError _ => true
  | .response status body =>
    decide (200 ≤ status) && decide (status < 300) && resultFieldObjOk body

/-- Whether a response contains a result object that contains a
capabilities entry: the success condition named by the specification. -/
def hasResultCapabilities (resp : Json) : Bool :=
  match resp.get? "result" with
  | some (.obj kvs) => kvs.any (fun p => p.1 == "capabilities")
  | _ => false

/-! ## Tool registry built by lifespan (src/mcp/server.py lines 128-181)

The startup sequence first connects the hard-coded SafetyServer client
and registers its tools, then iterates the servers.json configuration
list in order, skipping entries whose enabled flag is falsy, performing
the handshake, and inserting tool_name to client into TOOL_REGISTRY for
every discovered tool carrying a truthy name. TOOL_REGISTRY is a Python
dict, so a later insertion under the same name overwrites an earlier one.
The registry is modelled as the list of insertions in order, with lookup
scanning from the most recent insertion backwards. -/

/-- Identity of a client object created during startup: the hard-coded
SafetyServer client, or the client created for the i-th entry of
servers.json. -/
inductive ClientId where
  | safety
  | config (i : ℕ)
deriving DecidableEq

/-- Network behaviour observed from one agent during startup: whether the
initialize handshake succeeded, and the name field of each tool
descriptor returned by tools/list (none models a descriptor without a
name key). -/
structure AgentBehavior where
  initOk : Bool
  toolNames : List (Option String)

/-- Network behaviour of the hard-coded SafetyServer: its tool descriptors
are indexed directly (tool[name] on line 140), so names are mandatory. -/
structure SafetyBehavior where
  initOk : Bool
  toolNames : List String

/-- One servers.json entry: name, address, and the enabled field (none
when the key is absent). -/
structure ServerConfig where
  name : String
  address : String
  enabled : Option Bool

/-- Truthiness of config.get(enabled) on line 152: only an explicit true
lets the entry participate. -/
def enabledFlag (cfg : ServerConfig) : Bool :=
  cfg.enabled == some true

/-- Registrations inserted for the hard-coded SafetyServer (lines
137-141): every listed tool name maps to the safety client, provided the
handshake succeeded. -/
def safetyEntries (sb : SafetyBehavior) : List (String × ClientId) :=
  if sb.initOk then sb.toolNames.map (fun n => (n, ClientId.safety)) else []

/-- Registrations inserted for the i-th servers.json entry (lines
162-168): when the handshake succeeded, every discovered descriptor whose
name field is present and truthy (tool.get and the if tool_name guard)
maps to that client. -/
def entryRegistrations (i : ℕ) (b : AgentBehavior) : List (String × ClientId) :=
  if b.initOk then
    ((b.toolNames.filterMap id).filter (fun n => n ≠ "")).map (fun n => (n, ClientId.config i))
  else []

/-- Registrations inserted by the servers.json loop (lines 151-168),
starting at entry index i: disabled or unconfigured entries contribute
nothing; the rest contribute their discovered tool names in order. -/
def configEntries (beh : ℕ → AgentBehavior) : List ServerConfig → ℕ → List (String × ClientId)
  | [], _ => []
  | cfg :: rest, i =>
    (if enabledFlag cfg then entryRegistrations i (beh i) else []) ++ configEntries beh rest (i + 1)

/-- The full insertion sequence of TOOL_REGISTRY after startup: safety
client first, then the servers.json entries in order. -/
def startupRegistry (sb : SafetyBehavior) (configs : List ServerConfig) (beh : ℕ → AgentBehavior) :
    List (String × ClientId) :=
  safetyEntries sb ++ configEntries beh configs 0

/-- TOOL_REGISTRY.get(name): the value of the most recent insertion under
the name, none when the name was never inserted. Python dict assignment
overwrites, so the last insertion wins. -/
def regGet : List (String × ClientId) → String → Option ClientId
  | [], _ => none
  | (k, v) :: rest, name =>
    match regGet rest name with
    | some c => some c
    | none => if k == name then some v else none

/-- Whether one configuration entry, given its observed behaviour, gets
the tool called name registered: it is enabled, its handshake succeeded,
and its discovered descriptors carry the name. -/
def listsName (cfg : ServerConfig) (b : AgentBehavior) (name : String) : Bool :=
  enabledFlag cfg && b.initOk && decide (some name ∈ b.toolNames) && decide (name ≠ "")

/-- Index of the last configuration entry (at positions counted from i)
that gets name registered, none when no entry does. -/
def lastListing (beh : ℕ → AgentBehavior) : List ServerConfig → ℕ → String → Option ℕ
  | [], _, _ => none
  | cfg :: rest, i, name =>
    match lastListing beh rest (i + 1) name with
    | some j => some j
    | none => if listsName cfg (beh i) name then some i else none

/-- The name is discovered from the enabled configuration entry at
absolute index j. -/
def DiscoveredAt (configs : List ServerConfig) (beh : ℕ → AgentBehavior) (name : String) (j : ℕ) : Prop :=
  ∃ cfg, configs.get? j = some cfg ∧ listsName cfg (beh j) name = true

/-! ## Router dispatch (src/mcp/server.py lines 294-338)

After the router LLM returns a label, resolve_disruption selects the
specialist by substring tests on the label, in the order food, cab,
safety. The food and cab branches look their fixed tool name up in
TOOL_REGISTRY, call it when a client is registered, and place a
descriptive error dictionary in specialist_result otherwise. The safety
branch places a fixed routing message in specialist_result and performs
no registry lookup and no tool call. A label matching none of the three
leaves specialist_result as the empty dictionary. -/

/-- Outcome of the dispatch section: which registry tool, if any, was
invoked, and the specialist_result value placed in the response. -/
structure DispatchResult where
  toolCalled : Option String
  specialist_result : Json

/-- Extraction applied to a specialist response on lines 316 and 324:
the result entry with an empty-dict default, its content entry with a
default of a one-empty-dict list, then the first element, with Python
semantics for each step. -/
def extractSpecialistResult (resp : Json) : Except String Json := do
  let r ← pyGetDefault resp "result" (.obj [])
  let c ← pyGetDefault r "content" (.arr [.obj []])
  pyFirst c

/-- The dispatch section of resolve_disruption (lines 307-329), given the
label chosen by the router, the current registry, and the response each
tool would return if called. An error escaping this section is caught by
the surrounding handler and becomes an HTTP 500. -/
def dispatchScenario (chosen_agent_name : String) (reg : List (String × ClientId))
    (callResult : String → Json) : Except String DispatchResult :=
  if pyContains chosen_agent_name "food_delay_agent" then
    match regGet reg "food/resolveDelay" with
    | some _ => do
      let r ← extractSpecialistResult (callResult "food/resolveDelay")
      return ⟨some "food/resolveDelay", r⟩
    | none =>
      return ⟨none, .obj [("error", .str "Food Delay Agent is not connected. Check servers.json and agent status.")]⟩
  else if pyContains chosen_agent_name "cab_rerouting_agent" then
    match regGet reg "cab/rerouteRequest" with
    | some _ => do
      let r ← extractSpecialistResult (callResult "cab/rerouteRequest")
      return ⟨some "cab/rerouteRequest", r⟩
    | none =>
      return ⟨none, .obj [("error", .str "Cab Rerouting Agent is not connected.")]⟩
  else if pyContains chosen_agent_name "safety_agent" then
    return ⟨none, .obj [("action", .str "Routing to Safety Agent."),
                        ("details", .str "This requires audio input via the Safety Alert section.")]⟩
  else
    return ⟨none, .obj []⟩

/-! ## Dashboard and process-audio (src/mcp/server.py lines 38-44, 210-290)

current_status is the single in-memory dashboard record. process_audio
calls the safety tool, rejects responses carrying an error key, extracts
final_result_data from result.result.content[0].data, and, when that
data is truthy, overwrites the dashboard fields from its alert_level and
recognized_text entries and increments active_alerts when alert_level
equals HIGH. The Twilio side effect on the HIGH path does not touch the
dashboard and is not modelled. -/

/-- The in-memory dashboard record current_status. Values written into
the text and level fields come from untyped dictionary reads, so they are
kept as JSON values. -/
structure Dashboard where
  last_recognized_text : Json
  threat_level : Json
  last_update : Option String
  active_alerts : ℤ

/-- The dashboard value installed at module load (lines 39-44). -/
def firstStatus : Dashboard :=
  ⟨.str "", .str "SAFE", none, 0⟩

/-- The dashboard-update section of process_audio (lines 229-290), given
the prior dashboard, the decoded tool response, and the current
timestamp. Errors model exceptions: HTTPException for a response carrying
an error key (line 231), and Python runtime errors from ill-shaped
responses. Returns the new dashboard and the final_result_data value the
endpoint responds with. -/
def processAudioUpdate (st : Dashboard) (result : Json) (now : String) :
    Except String (Dashboard × Json) := do
  match pyKeyMem "error" result with
  | none => .error "TypeError"
  | some true => .error "HTTPException 500"
  | some false =>
    let r ← pyGetDefault result "result" (.obj [])
    let contentVal ←
      match r with
      | .obj kvs => Except.ok (lookupId kvs "content")
      | _ => Except.error "AttributeError"
    let truthyContent := match contentVal with
      | some c => c.truthy
      | none => false
    let final_result_data ←
      if truthyContent then do
        let rv ← pySubscript result "result"
        let cv ← pySubscript rv "content"
        let e0 ← pyFirst cv
        pyGetDefault e0 "data" (.obj [])
      else
        pure (Json.obj [])
    if final_result_data.truthy then do
      let alert_level ← pyGetDefault final_result_data "alert_level" (.str "UNKNOWN")
      let recognized_text ← pyGetDefault final_result_data "recognized_text" (.str "")
      let st' : Dashboard :=
        { st with
          threat_level := alert_level
          last_recognized_text := recognized_text
          last_update := some now }
      let st'' : Dashboard :=
        if isStrEq alert_level "HIGH" then
          { st' with active_alerts := st'.active_alerts + 1 }
        else st'
      return (st'', final_result_data)
    else
      return (st, final_result_data)

/-! ## Safety pipeline action stage (src/agents/safety_agent_vosk.py)

Stage 4 of GeminiSafetyAgent.analyze_audio (lines 135-147) branches on
the threat_level entry of the parsed judgment: HIGH notifies officials,
MEDIUM contacts the user, anything else takes no notification action. The
Twilio outcome strings of the two notification helpers are passed in as
parameters since they depend on the network. -/

/-- Which notification the action stage performed. -/
inductive SafetyAction where
  | officialsNotified
  | userContacted
  | noAction
deriving DecidableEq

/-- Stage 4 of analyze_audio: the branch on threat_level, producing the
action taken and the action_result dictionary. -/
def actionStage (threat_analysis : Json) (notifyResult contactResult : String) :
    SafetyAction × Json :=
  if optIsStr (threat_analysis.get? "threat_level") "HIGH" then
    (.officialsNotified,
     .obj [("action_taken", .str notifyResult),
           ("chain_of_thought", .str "Threat was HIGH, notified officials.")])
  else if optIsStr (threat_analysis.get? "threat_level") "MEDIUM" then
    (.userContacted,
     .obj [("action_taken", .str contactResult),
           ("chain_of_thought", .str "Threat was MEDIUM, contacted user for check-in.")])
  else
    (.noAction, .obj [("chain_of_thought", .str "Threat was SAFE, no action required.")])

/-- The dictionary analyze_audio returns on success (line 147). -/
def analyzeAudioReturn (threat_analysis action_result : Json) : Json :=
  .obj [("threat_analysis", threat_analysis), ("responder_actions", action_result)]

/-- The result dictionary SafetyMCP_Server.mcp_tools_call wraps around the
analysis data (src/agents/safety_agent_vosk.py line 168). -/
def safetyToolCallContent (data : Json) : Json :=
  .obj [("content", .arr [.obj [("type", .str "dict"), ("data", data)]])]

/-- The JSON-RPC envelope every specialist handle_rpc_request returns. -/
def rpcEnvelope (requestId : Json) (result : Json) : Json :=
  .obj [("jsonrpc", .str "2.0"), ("id", requestId), ("result", result)]

/-! ## Top-level pipeline exception handling (claim on failure semantics)

Each specialist pipeline wraps its whole body in one try/except. The body
outcome is modelled as Except String of the value the body would return,
the error carrying the exception text; the wrappers below are the except
clauses of the three top-level entry points. -/

/-- The formatted failure string shared by the two LangChain agents. -/
def agentFailureMessage (e : String) : String :=
  "🔥🔥🔥 AGENT EXECUTION FAILED 🔥🔥🔥\nError: " ++ e

/-- LangChainFoodAgent.run (src/agents/food_delay_agent.py lines
179-184): on success the output entry of the executor response, with a
default; on any exception the formatted failure string. -/
def foodAgentRun (outcome : Except String Json) : Json :=
  match outcome with
  | .ok response => (response.get? "output").getD (.str "No output generated.")
  | .error e => .str (agentFailureMessage e)

/-- LangChainReroutingAgent.run (src/agents/rerouting_agent.py lines
169-242): the body computes the full reasoning-log string; any exception
is caught on line 239 and returned as the formatted failure string. -/
def reroutingAgentRun (outcome : Except String String) : String :=
  match outcome with
  | .ok s => s
  | .error e => agentFailureMessage e

/-- GeminiSafetyAgent.analyze_audio (src/agents/safety_agent_vosk.py
lines 90-152): the body returns the analysis dictionary; any exception is
caught on line 149 and returned as an error-bearing dictionary. -/
def safetyAnalyzeAudio (outcome : Except String Json) : Json :=
  match outcome with
  | .ok d => d
  | .error e => .obj [("error", .str ("An error occurred during analysis: " ++ e))]

/-! ## Cab rerouting alternative selection (src/agents/rerouting_agent.py)

_choose_best (lines 136-143) takes the Python max of the alternatives
under a rating key that parses item.get(rating, 0) or 0 as a float,
counting unparsable ratings as 0. The run pipeline (lines 194-201) feeds
it the parsed alternatives with the first entry removed, treating the
first search result as the original destination, and returns the
no-suitable-alternative response when nothing is chosen. -/

/-- Numeric value of a digit string (digits already validated). -/
def digitsVal (cs : List Char) : ℕ :=
  cs.foldl (fun a c => a * 10 + (c.toNat - 48)) 0

/-- Decimal parse of an unsigned float literal: digits, optionally a dot
and further digits, at least one digit overall. -/
def parseUnsignedRat (cs : List Char) : Option ℚ :=
  let intPart := cs.takeWhile (fun c => c != '.')
  let rest := cs.dropWhile (fun c => c != '.')
  if intPart.all Char.isDigit then
    match rest with
    | [] => if intPart.isEmpty then none else some (digitsVal intPart)
    | '.' :: frac =>
      if frac.all Char.isDigit && !(intPart.isEmpty && frac.isEmpty) then
        some ((digitsVal intPart : ℚ) + (digitsVal frac : ℚ) / (10 : ℚ) ^ frac.length)
      else none
    | _ => none
  else none

/-- Python float(s) on the decimal literals ratings take: optional sign
around an unsigned decimal, surrounding whitespace stripped; none models
ValueError. -/
def parseRat (s : String) : Option ℚ :=
  match s.trim.data with
  | '-' :: rest => (parseUnsignedRat rest).map Neg.neg
  | '+' :: rest => parseUnsignedRat rest
  | rest => parseUnsignedRat rest

/-- Python float(x) on a JSON value; none models TypeError or
ValueError. -/
def pyFloat : Json → Option ℚ
  | .num q => some q
  | .bool b => some (if b then 1 else 0)
  | .str s => parseRat s
  | _ => none

/-- rating_of inside _choose_best: float(item.get(rating, 0) or 0) with
every exception mapped to 0.0. -/
def rating_of (item : Json) : ℚ :=
  let v := (item.get? "rating").getD (.num 0)
  let v' := if v.truthy then v else .num 0
  (pyFloat v').getD 0

/-- One comparison step of the Python max scan: the running best is
replaced only on a strict rating improvement, so the earliest element
wins rating ties. -/
def betterOf (best item : Json) : Json :=
  if rating_of best < rating_of item then item else best

/-- Embeds _choose_best (lines 137-143): Python max under rating_of; none on an
empty list. -/
def chooseBest : List Json → Option Json
  | [] => none
  | x :: xs => some (xs.foldl betterOf x)

/-- Lines 194-195 of run: drop the first (original) entry when at least
two entries were found, otherwise consider nothing, then choose the best
of what remains. -/
def selectAlternative (all_found_locations : List Json) : Option Json :=
  chooseBest (if all_found_locations.length > 1 then all_found_locations.drop 1 else [])

/-- Outcome of the selection step of run (lines 194-201). -/
inductive ChooseStep where
  | noSuitableResponse (response : String)
  | chosen (best : Json)

/-- The selection step of run: the guard on line 199 is the Python
truthiness test if not best, so both a missing pick (None) and a falsy
picked entry (an empty dict, 0, an empty string) send the pipeline to
the no-suitable-alternative answer (line 201); otherwise it continues
with the chosen entry. -/
def chooseAlternativeStep (alts : List Json) : ChooseStep :=
  match selectAlternative alts with
  | none => .noSuitableResponse "No suitable alternative destinations found nearby."
  | some b =>
    if b.truthy then .chosen b
    else .noSuitableResponse "No suitable alternative destinations found nearby."

/-! ## Food agent nearest pending order (src/agents/food_delay_agent.py)

find_nearest_pending_order (lines 58-83) filters the simulated orders to
those with status Awaiting Pickup, scans them for the order at a
different merchant whose merchant location is closest to the driver
(strict improvement, so the earliest minimizer is kept; orders whose
merchant is missing from the restaurants table are skipped), and renders
one of three answers. -/

/-- The fields of a simulated order record that the function reads. -/
structure FoodOrder where
  status : String
  merchant_id : Option String

/-- The fields of a simulated restaurant record that the function reads;
location is read with a default of 0. -/
structure Merchant where
  name : String
  location : Option ℤ

/-- The system_data.json snapshot: orders and restaurants keyed by id.
Python dicts have unique keys; theorems assume key uniqueness where the
source relies on it. -/
structure SystemData where
  orders : List (String × FoodOrder)
  restaurants : List (String × Merchant)

/-- The pending_orders comprehension on line 62. -/
def pendingOrders (data : SystemData) : List (String × FoodOrder) :=
  data.orders.filter (fun p => p.2.status == "Awaiting Pickup")

/-- Distance computed on line 74: abs(merchant.get(location, 0) -
driver_location). -/
def merchantDistance (m : Merchant) (driver_location : ℤ) : ℤ :=
  |m.location.getD 0 - driver_location|

/-- The scan loop of lines 66-77, carrying (nearest_order_id,
min_distance) as an option whose none is the initial (None, inf)
state. -/
def scanOrders (data : SystemData) (driver_location : ℤ) (current_merchant_id : String) :
    List (String × FoodOrder) → Option (String × ℤ) → Option (String × ℤ)
  | [], acc => acc
  | (oid, o) :: rest, acc =>
    scanOrders data driver_location current_merchant_id rest
      (if o.merchant_id ≠ some current_merchant_id then
        match o.merchant_id.bind (lookupId data.restaurants) with
        | some m =>
          match acc with
          | none => some (oid, merchantDistance m driver_location)
          | some (bid, bd) =>
            if merchantDistance m driver_location < bd then
              some (oid, merchantDistance m driver_location)
            else acc
        | none => acc
      else acc)

/-- The three answers of find_nearest_pending_order, keeping the data
interpolated into each returned message. -/
inductive NearestResult where
  | noPending
  | noSuitable
  | found (order_id : String) (merchant_name : String) (distance : ℤ)
deriving DecidableEq

/-- find_nearest_pending_order (lines 58-83). The final rendering indexes
pending_orders[nearest_order_id] and the restaurants table directly and
calls .get on the merchant, so a missing record raises (error cases);
the truthiness test on line 79 sends an empty order id to the no-suitable
answer. -/
def find_nearest_pending_order (data : SystemData) (driver_location : ℤ)
    (current_merchant_id : String) : Except String NearestResult :=
  if (pendingOrders data).isEmpty then .ok .noPending
  else
    match scanOrders data driver_location current_merchant_id (pendingOrders data) none with
    | some (oid, d) =>
      if oid ≠ "" then
        match lookupId (pendingOrders data) oid with
        | none => .error "KeyError"
        | some o =>
          match o.merchant_id with
          | none => .error "KeyError"
          | some mid =>
            match lookupId data.restaurants mid with
            | none => .error "AttributeError"
            | some m => .ok (.found oid m.name d)
      else .ok .noSuitable
    | none => .ok .noSuitable

/-! ## Helper lemmas -/

/-- The body observed by the capability and tools checks of a client
request: the decoded 2xx body, or the synthesized error dictionary. -/
def transportBody : Transport → Json
  | .reqError m => errorResponse m
  | .response _ b => b

lemma lookupId_isSome_eq_any {α : Type} (kvs : List (String × α)) (k : String) :
    (lookupId kvs k).isSome = kvs.any (fun p => p.1 == k) := by
  induction kvs with
  | nil => rfl
  | cons p rest ih =>
    obtain ⟨k', v⟩ := p
    by_cases h : k' == k
    · simp [lookupId, h]
    · simp only [lookupId, h, if_neg, List.any_cons, Bool.false_or]
      simpa using ih

lemma capabilityCheck_eq (b : Json) (h : resultFieldObjOk b = true) :
    capabilityCheck b = .ok (hasResultCapabilities b) := by
  match b with
  | .null | .bool _ | .num _ | .str _ | .arr _ => simp [resultFieldObjOk] at h
  | .obj kvs =>
    match hres : lookupId kvs "result" with
    | none =>
      have hany : kvs.any (fun p => p.1 == "result") = false := by
        have := lookupId_isSome_eq_any kvs "result"
        rw [hres] at this
        exact this.symm
      simp [capabilityCheck, pyKeyMem, hany, hasResultCapabilities, Json.get?, hres]
    | some v =>
      have hany : kvs.any (fun p => p.1 == "result") = true := by
        have := lookupId_isSome_eq_any kvs "result"
        rw [hres] at this
        exact this.symm
      match v with
      | .obj kvs2 =>
        simp [capabilityCheck, pyKeyMem, hany, pySubscript, hres, hasResultCapabilities,
              Json.get?]
      | .null | .bool _ | .num _ | .str _ | .arr _ =>
        simp [resultFieldObjOk, hres] at h

/-- CLAIM C3: for every MCPClient request (initialize, list_tools,
call_tool), a transport failure (httpx.RequestError: connection refused,
timeout) is caught inside the client and surfaces as a dictionary whose
error key holds a message field; none of the three request methods lets
such a failure escape as an exception (each returns a plain value on the
transport-failure path). -/
theorem mcp_transport_failure_contained (method name : String) (params arguments : Json)
    (msg : String) :
    sendRequest method params (.reqError msg) = .ok (errorResponse msg) ∧
    (errorResponse msg).get? "error" = some (.obj [("message", .str msg)]) ∧
    mcpInit (.reqError msg) = .ok false ∧
    listTools (.reqError msg) = .ok (.arr []) ∧
    callTool name arguments (.reqError msg) = .ok (errorResponse msg) :=
  ⟨rfl, rfl, rfl, rfl, rfl⟩

/-- CLAIM C5: on every well-formed transport outcome (all outcomes this
system produces: transport failures, and 2xx responses whose body is an
object whose result entry, when present, is an object), MCPClient
initialize returns, without raising, exactly the boolean that says
whether the response contains a result object holding a capabilities
entry; in particular it returns false on every synthesized
transport-error response. -/
theorem mcpInit_capabilities (t : Transport) (h : wellFormedTransport t = true) :
    mcpInit t = .ok (hasResultCapabilities (transportBody t)) := by
  match t with
  | .reqError m => rfl
  | .response status body =>
    unfold wellFormedTransport at h
    simp only [Bool.and_eq_true, decide_eq_true_eq] at h
    obtain ⟨⟨h1, h2⟩, h3⟩ := h
    show (match (if 200 ≤ status ∧ status < 300 then (Except.ok body : Except String Json)
                 else Except.error "HTTPStatusError") with
          | Except.error e => Except.error e
          | Except.ok resp => capabilityCheck resp) =
        Except.ok (hasResultCapabilities body)
    rw [if_pos (show 200 ≤ status ∧ status < 300 from ⟨h1, h2⟩)]
    exact capabilityCheck_eq body h3

/-- Witness for C5: a concrete 2xx response with capabilities yields
true. -/
theorem mcpInit_capabilities_witness :
    mcpInit (.response 200 (.obj [("jsonrpc", .str "2.0"), ("id", .num 1),
        ("result", .obj [("capabilities", .obj [("tools", .obj [])])])])) =
      .ok (hasResultCapabilities (transportBody (.response 200 (.obj [("jsonrpc", .str "2.0"),
        ("id", .num 1), ("result", .obj [("capabilities", .obj [("tools", .obj [])])])])))) :=
  mcpInit_capabilities _ (by rfl)

/-- CLAIM C7: the top-level entry point of each specialist pipeline is a total
function of its body outcome; every exception of the body is caught and
rendered as the formatted failure answer (a formatted error string for
the two LangChain agents, an error-bearing dictionary for the safety
agent), and a normal body outcome passes through. -/
theorem pipelines_catch_all_failures (e : String) :
    foodAgentRun (.error e) = .str (agentFailureMessage e) ∧
    reroutingAgentRun (.error e) = agentFailureMessage e ∧
    safetyAnalyzeAudio (.error e) =
      .obj [("error", .str ("An error occurred during analysis: " ++ e))] ∧
    (∀ response : Json,
      foodAgentRun (.ok response) = (response.get? "output").getD (.str "No output generated.")) ∧
    (∀ s : String, reroutingAgentRun (.ok s) = s) ∧
    (∀ d : Json, safetyAnalyzeAudio (.ok d) = d) :=
  ⟨rfl, rfl, rfl, fun _ => rfl, fun _ => rfl, fun _ => rfl⟩

lemma optIsStr_iff (o : Option Json) (s : String) : optIsStr o s = true ↔ o = some (.str s) := by
  match o with
  | none => simp [optIsStr]
  | some j =>
    match j with
    | .str t => simp [optIsStr, isStrEq]
    | .null | .bool _ | .num _ | .arr _ | .obj _ => simp [optIsStr, isStrEq]

/-- CLAIM C6: the action stage of the safety pipeline notifies officials
exactly when the judged threat level equals HIGH, contacts the user
exactly when it equals MEDIUM, and takes no notification action on every
other judgment (including SAFE). -/
theorem actionStage_branching (threat_analysis : Json) (notifyResult contactResult : String) :
    ((actionStage threat_analysis notifyResult contactResult).1 = .officialsNotified ↔
      threat_analysis.get? "threat_level" = some (.str "HIGH")) ∧
    ((actionStage threat_analysis notifyResult contactResult).1 = .userContacted ↔
      threat_analysis.get? "threat_level" = some (.str "MEDIUM")) ∧
    (threat_analysis.get? "threat_level" ≠ some (.str "HIGH") →
     threat_analysis.get? "threat_level" ≠ some (.str "MEDIUM") →
      (actionStage threat_analysis notifyResult contactResult).1 = .noAction) := by
  unfold actionStage
  by_cases hH : threat_analysis.get? "threat_level" = some (.str "HIGH")
  · simp [hH, optIsStr, isStrEq]
  · by_cases hM : threat_analysis.get? "threat_level" = some (.str "MEDIUM")
    · simp [hM, optIsStr, isStrEq]
    · have h1 : optIsStr (threat_analysis.get? "threat_level") "HIGH" = false := by
        rw [Bool.eq_false_iff, Ne, optIsStr_iff]
        exact hH
      have h2 : optIsStr (threat_analysis.get? "threat_level") "MEDIUM" = false := by
        rw [Bool.eq_false_iff, Ne, optIsStr_iff]
        exact hM
      simp [h1, h2, hH, hM]

/-- Witness for C6: concrete HIGH, MEDIUM and SAFE judgments take the
three branches. -/
theorem actionStage_branching_witness :
    (actionStage (.obj [("threat_level", .str "HIGH")]) "n" "c").1 = .officialsNotified ∧
    (actionStage (.obj [("threat_level", .str "MEDIUM")]) "n" "c").1 = .userContacted ∧
    (actionStage (.obj [("threat_level", .str "SAFE")]) "n" "c").1 = .noAction :=
  ⟨(actionStage_branching (.obj [("threat_level", .str "HIGH")]) "n" "c").1.mpr rfl,
   (actionStage_branching (.obj [("threat_level", .str "MEDIUM")]) "n" "c").2.1.mpr rfl,
   (actionStage_branching (.obj [("threat_level", .str "SAFE")]) "n" "c").2.2
     (by simp [Json.get?, lookupId]) (by simp [Json.get?, lookupId])⟩

/-- COUNTEREXAMPLE to C2: the safety branch of the dispatch table does
not invoke any registry tool. With the safety specialist registered under
its tool name, the label safety_agent produces the fixed routing message
and records no tool call, refuting the claim that the label selects a
registry tool for the safety specialist to invoke next. -/
theorem dispatch_safety_calls_no_tool :
    dispatchScenario "safety_agent" [("safety/analyzeAudio", ClientId.safety)]
        (fun _ => Json.obj []) =
      .ok ⟨none, .obj [("action", .str "Routing to Safety Agent."),
                       ("details", .str "This requires audio input via the Safety Alert section.")]⟩ ∧
    ¬ ∃ d, dispatchScenario "safety_agent" [("safety/analyzeAudio", ClientId.safety)]
        (fun _ => Json.obj []) = .ok d ∧ d.toolCalled ≠ none := by
  refine ⟨rfl, ?_⟩
  rintro ⟨d, hd, hne⟩
  rw [show dispatchScenario "safety_agent" [("safety/analyzeAudio", ClientId.safety)]
        (fun _ => Json.obj []) =
      .ok ⟨none, .obj [("action", .str "Routing to Safety Agent."),
                       ("details", .str "This requires audio input via the Safety Alert section.")]⟩
    from rfl] at hd
  cases hd
  exact hne rfl

/-- CLAIM C2 as amended: the dispatch table is deterministic in the
chosen label, with food_delay_agent mapped to the tool food/resolveDelay
and cab_rerouting_agent mapped to cab/rerouteRequest; for those two
branches a missing registry client yields a descriptive not-connected
error dictionary rather than an exception or silence; the safety_agent
label invokes no registry tool and yields a fixed routing message. -/
theorem dispatch_table (reg : List (String × ClientId)) (callResult : String → Json) :
    (∀ c, regGet reg "food/resolveDelay" = some c →
      dispatchScenario "food_delay_agent" reg callResult =
        (extractSpecialistResult (callResult "food/resolveDelay")).bind
          (fun r => .ok ⟨some "food/resolveDelay", r⟩)) ∧
    (regGet reg "food/resolveDelay" = none →
      dispatchScenario "food_delay_agent" reg callResult =
        .ok ⟨none, .obj [("error",
          .str "Food Delay Agent is not connected. Check servers.json and agent status.")]⟩) ∧
    (∀ c, regGet reg "cab/rerouteRequest" = some c →
      dispatchScenario "cab_rerouting_agent" reg callResult =
        (extractSpecialistResult (callResult "cab/rerouteRequest")).bind
          (fun r => .ok ⟨some "cab/rerouteRequest", r⟩)) ∧
    (regGet reg "cab/rerouteRequest" = none →
      dispatchScenario "cab_rerouting_agent" reg callResult =
        .ok ⟨none, .obj [("error", .str "Cab Rerouting Agent is not connected.")]⟩) ∧
    (dispatchScenario "safety_agent" reg callResult =
      .ok ⟨none, .obj [("action", .str "Routing to Safety Agent."),
                       ("details", .str "This requires audio input via the Safety Alert section.")]⟩) := by
  refine ⟨?_, ?_, ?_, ?_, ?_⟩
  · intro c hc
    unfold dispatchScenario
    rw [show pyContains "food_delay_agent" "food_delay_agent" = true from rfl]
    simp only [if_true, hc]
    rfl
  · intro hc
    unfold dispatchScenario
    rw [show pyContains "food_delay_agent" "food_delay_agent" = true from rfl]
    simp only [if_true, hc]
    rfl
  · intro c hc
    unfold dispatchScenario
    rw [show pyContains "cab_rerouting_agent" "food_delay_agent" = false from rfl,
        show pyContains "cab_rerouting_agent" "cab_rerouting_agent" = true from rfl]
    simp only [if_true, Bool.false_eq_true, if_false, hc]
    rfl
  · intro hc
    unfold dispatchScenario
    rw [show pyContains "cab_rerouting_agent" "food_delay_agent" = false from rfl,
        show pyContains "cab_rerouting_agent" "cab_rerouting_agent" = true from rfl]
    simp only [if_true, Bool.false_eq_true, if_false, hc]
    rfl
  · unfold dispatchScenario
    rw [show pyContains "safety_agent" "food_delay_agent" = false from rfl,
        show pyContains "safety_agent" "cab_rerouting_agent" = false from rfl,
        show pyContains "safety_agent" "safety_agent" = true from rfl]
    rfl

/-- Witness for C2 as amended: with an empty registry, the food label
yields the not-connected dictionary. -/
theorem dispatch_table_witness :
    dispatchScenario "food_delay_agent" [] (fun _ => Json.obj []) =
      .ok ⟨none, .obj [("error",
        .str "Food Delay Agent is not connected. Check servers.json and agent status.")]⟩ :=
  (dispatch_table [] (fun _ => Json.obj [])).2.1 rfl

/-- CLAIM C4 is refuted by the code (code bug): process_audio reads the
keys alert_level and recognized_text at the top level of the data
dictionary, but the safety agent nests the level under
threat_analysis.threat_level and the transcript under
threat_analysis.recognized_text. On the exact success response the safety
server produces for a HIGH judgment, the dashboard records the level
UNKNOWN and an empty transcript, and the running alert counter stays
unchanged, although the pipeline analysis carries level HIGH and a
non-empty transcript. The timestamp is set as claimed. -/
theorem process_audio_key_mismatch :
    (Json.obj [("threat_level", .str "HIGH"), ("threat_score", .num 9),
      ("justification", .str "Distress call with strongly negative sentiment."),
      ("recognized_text", .str "help me please stop")]).get? "threat_level" =
        some (.str "HIGH") ∧
    processAudioUpdate firstStatus
      (rpcEnvelope (.num 1) (safetyToolCallContent (analyzeAudioReturn
        (Json.obj [("threat_level", .str "HIGH"), ("threat_score", .num 9),
          ("justification", .str "Distress call with strongly negative sentiment."),
          ("recognized_text", .str "help me please stop")])
        (actionStage (Json.obj [("threat_level", .str "HIGH"), ("threat_score", .num 9),
          ("justification", .str "Distress call with strongly negative sentiment."),
          ("recognized_text", .str "help me please stop")])
          "Officials have been notified via Twilio." "unused").2)))
      "2026-10-12T00:00:00" =
      .ok (⟨.str "", .str "UNKNOWN", some "2026-10-12T00:00:00", 0⟩,
        analyzeAudioReturn
          (Json.obj [("threat_level", .str "HIGH"), ("threat_score", .num 9),
            ("justification", .str "Distress call with strongly negative sentiment."),
            ("recognized_text", .str "help me please stop")])
          (actionStage (Json.obj [("threat_level", .str "HIGH"), ("threat_score", .num 9),
            ("justification", .str "Distress call with strongly negative sentiment."),
            ("recognized_text", .str "help me please stop")])
            "Officials have been notified via Twilio." "unused").2) :=
  ⟨rfl, rfl⟩

lemma foldl_betterOf_mem : ∀ (xs : List Json) (x : Json), xs.foldl betterOf x ∈ x :: xs := by
  intro xs
  induction xs with
  | nil => intro x; simp
  | cons z zs ih =>
    intro x
    rw [List.foldl_cons]
    have h := ih (betterOf x z)
    rcases List.mem_cons.mp h with h1 | h2
    · rw [h1]
      unfold betterOf
      by_cases hlt : rating_of x < rating_of z
      · simp [hlt]
      · simp [hlt]
    · exact List.mem_cons_of_mem _ (List.mem_cons_of_mem _ h2)

lemma rating_le_betterOf_left (x z : Json) : rating_of x ≤ rating_of (betterOf x z) := by
  unfold betterOf
  by_cases hlt : rating_of x < rating_of z
  · simp only [hlt, if_true]
    exact le_of_lt hlt
  · simp [hlt]

lemma rating_le_betterOf_right (x z : Json) : rating_of z ≤ rating_of (betterOf x z) := by
  unfold betterOf
  by_cases hlt : rating_of x < rating_of z
  · simp [hlt]
  · simp only [hlt, if_false]
    exact le_of_not_lt hlt

lemma foldl_betterOf_le : ∀ (xs : List Json) (x y : Json), y ∈ x :: xs →
    rating_of y ≤ rating_of (xs.foldl betterOf x) := by
  intro xs
  induction xs with
  | nil =>
    intro x y hy
    rcases List.mem_cons.mp hy with h | h
    · rw [h, List.foldl_nil]
    · simp at h
  | cons z zs ih =>
    intro x y hy
    rw [List.foldl_cons]
    have hseed : rating_of (betterOf x z) ≤ rating_of (zs.foldl betterOf (betterOf x z)) :=
      ih (betterOf x z) (betterOf x z) (List.mem_cons_self _ _)
    rcases List.mem_cons.mp hy with h1 | h2
    · rw [h1]
      exact le_trans (rating_le_betterOf_left x z) hseed
    · rcases List.mem_cons.mp h2 with h3 | h4
      · rw [h3]
        exact le_trans (rating_le_betterOf_right x z) hseed
      · exact ih (betterOf x z) y (List.mem_cons_of_mem _ h4)

lemma selectAlternative_spec (alts : List Json) (b : Json)
    (hsel : selectAlternative alts = some b) :
    b ∈ alts.drop 1 ∧ ∀ x ∈ alts.drop 1, rating_of x ≤ rating_of b := by
  unfold selectAlternative at hsel
  by_cases hlen : alts.length > 1
  · rw [if_pos hlen] at hsel
    match halts : alts.drop 1 with
    | [] =>
      rw [halts] at hsel
      exact absurd hsel (by simp [chooseBest])
    | x :: xs =>
      rw [halts] at hsel
      injection hsel with hb
      subst hb
      refine ⟨?_, ?_⟩
      · exact foldl_betterOf_mem xs x
      · intro y hy
        exact foldl_betterOf_le xs x y hy
  · rw [if_neg hlen] at hsel
    exact absurd hsel (by simp [chooseBest])

/-- COUNTEREXAMPLE to C8: a two-entry alternatives list whose non-first
entry is falsy (here the empty dictionary, which _parse_alternatives can
produce). The code picks that entry as highest-rated but the if-not-best
truthiness guard on line 199 of rerouting_agent.py then returns the
no-suitable response, so with at least two entries no alternative is
chosen, refuting the claim that one always is. -/
theorem choose_falsy_best_refutes :
    [Json.obj [("name", .str "Origin"), ("rating", .num 5)], Json.obj []].length = 2 ∧
    chooseAlternativeStep [Json.obj [("name", .str "Origin"), ("rating", .num 5)], Json.obj []] =
      .noSuitableResponse "No suitable alternative destinations found nearby." ∧
    ¬ ∃ b, chooseAlternativeStep
        [Json.obj [("name", .str "Origin"), ("rating", .num 5)], Json.obj []] = .chosen b := by
  refine ⟨rfl, rfl, ?_⟩
  rintro ⟨b, hb⟩
  have hb' : ChooseStep.noSuitableResponse "No suitable alternative destinations found nearby." =
      ChooseStep.chosen b := hb
  exact absurd hb' (by simp)

/-- CLAIM C8 as amended: the alternative-selection step of the
cab-rerouting pipeline never chooses the first (original) entry: every
chosen alternative is drawn from the non-first entries and its rating
(unparsable ratings counting as 0) is greater than or equal to the
rating of every non-first entry. With fewer than two parsed alternatives
nothing is chosen and the no-suitable-alternative response is returned;
with at least two, the highest-rated non-first entry is picked and is
chosen exactly when it is truthy, a falsy pick also yielding the
no-suitable response (the if-not-best truthiness guard). -/
theorem choose_skips_original (alts : List Json) :
    (alts.length < 2 →
      chooseAlternativeStep alts =
        .noSuitableResponse "No suitable alternative destinations found nearby.") ∧
    (2 ≤ alts.length →
      ∃ b, b ∈ alts.drop 1 ∧ (∀ x ∈ alts.drop 1, rating_of x ≤ rating_of b) ∧
        chooseAlternativeStep alts =
          (if b.truthy then .chosen b
           else .noSuitableResponse "No suitable alternative destinations found nearby.")) ∧
    (∀ b, chooseAlternativeStep alts = .chosen b →
      b ∈ alts.drop 1 ∧ ∀ x ∈ alts.drop 1, rating_of x ≤ rating_of b) := by
  refine ⟨?_, ?_, ?_⟩
  · intro hlen
    unfold chooseAlternativeStep selectAlternative
    rw [if_neg (by omega)]
    rfl
  · intro hlen
    match halts : alts.drop 1 with
    | [] =>
      have : alts.length - 1 = 0 := by
        rw [← List.length_drop, halts]
        rfl
      omega
    | x :: xs =>
      have hsel : selectAlternative alts = some (xs.foldl betterOf x) := by
        unfold selectAlternative
        rw [if_pos (by omega), halts]
        rfl
      refine ⟨xs.foldl betterOf x, ?_, ?_, ?_⟩
      · exact foldl_betterOf_mem xs x
      · intro y hy
        exact foldl_betterOf_le xs x y hy
      · unfold chooseAlternativeStep
        rw [hsel]
  · intro b hb
    cases hsel : selectAlternative alts with
    | none =>
      unfold chooseAlternativeStep at hb
      rw [hsel] at hb
      exact absurd hb (by simp)
    | some b0 =>
      unfold chooseAlternativeStep at hb
      rw [hsel] at hb
      have hb' : (if b0.truthy then ChooseStep.chosen b0
          else ChooseStep.noSuitableResponse
            "No suitable alternative destinations found nearby.") = ChooseStep.chosen b := hb
      by_cases ht : b0.truthy
      · rw [if_pos ht] at hb'
        injection hb' with hbb
        subst hbb
        exact selectAlternative_spec alts b0 hsel
      · rw [if_neg ht] at hb'
        exact absurd hb' (by simp)

/-- Witness for C8 as amended: a one-entry list yields the no-suitable
response; in a three-entry list of truthy entries the highest-rated
non-first entry is picked and chosen; and the chosen entry of that list
satisfies the never-first property. -/
theorem choose_skips_original_witness :
    (chooseAlternativeStep [.obj [("name", .str "Origin"), ("rating", .num 5)]] =
      .noSuitableResponse "No suitable alternative destinations found nearby.") ∧
    (∃ b, b ∈ [Json.obj [("name", .str "Origin"), ("rating", .num 5)],
           .obj [("name", .str "B"), ("rating", .num 3)],
           .obj [("name", .str "C"), ("rating", .num 4)]].drop 1 ∧
      (∀ x ∈ [Json.obj [("name", .str "Origin"), ("rating", .num 5)],
             .obj [("name", .str "B"), ("rating", .num 3)],
             .obj [("name", .str "C"), ("rating", .num 4)]].drop 1,
        rating_of x ≤ rating_of b) ∧
      chooseAlternativeStep
        [.obj [("name", .str "Origin"), ("rating", .num 5)],
         .obj [("name", .str "B"), ("rating", .num 3)],
         .obj [("name", .str "C"), ("rating", .num 4)]] =
        (if b.truthy then .chosen b
         else .noSuitableResponse "No suitable alternative destinations found nearby.")) ∧
    ((chooseAlternativeStep
        [.obj [("name", .str "Origin"), ("rating", .num 5)],
         .obj [("name", .str "B"), ("rating", .num 3)],
         .obj [("name", .str "C"), ("rating", .num 4)]] =
          .chosen (.obj [("name", .str "C"), ("rating", .num 4)])) →
      Json.obj [("name", .str "C"), ("rating", .num 4)] ∈
        [Json.obj [("name", .str "Origin"), ("rating", .num 5)],
         .obj [("name", .str "B"), ("rating", .num 3)],
         .obj [("name", .str "C"), ("rating", .num 4)]].drop 1 ∧
      ∀ x ∈ [Json.obj [("name", .str "Origin"), ("rating", .num 5)],
             .obj [("name", .str "B"), ("rating", .num 3)],
             .obj [("name", .str "C"), ("rating", .num 4)]].drop 1,
        rating_of x ≤ rating_of (.obj [("name", .str "C"), ("rating", .num 4)])) :=
  ⟨(choose_skips_original [.obj [("name", .str "Origin"), ("rating", .num 5)]]).1
      (by decide),
   (choose_skips_original
      [.obj [("name", .str "Origin"), ("rating", .num 5)],
       .obj [("name", .str "B"), ("rating", .num 3)],
       .obj [("name", .str "C"), ("rating", .num 4)]]).2.1 (by decide),
   (choose_skips_original
      [.obj [("name", .str "Origin"), ("rating", .num 5)],
       .obj [("name", .str "B"), ("rating", .num 3)],
       .obj [("name", .str "C"), ("rating", .num 4)]]).2.2
     (.obj [("name", .str "C"), ("rating", .num 4)])⟩

lemma regGet_append (xs ys : List (String × ClientId)) (n : String) :
    regGet (xs ++ ys) n =
      match regGet ys n with
      | some c => some c
      | none => regGet xs n := by
  induction xs with
  | nil =>
    cases h : regGet ys n <;> simp [regGet, h]
  | cons p xs ih =>
    obtain ⟨k, v⟩ := p
    show (match regGet (xs ++ ys) n with
          | some c => some c
          | none => if k == n then some v else none) = _
    rw [ih]
    cases h : regGet ys n <;> simp [h, regGet]

lemma regGet_mapSame (l : List String) (v : ClientId) (n : String) :
    regGet (l.map (fun k => (k, v))) n = if n ∈ l then some v else none := by
  induction l with
  | nil => simp [regGet]
  | cons k rest ih =>
    simp only [List.map_cons, regGet, ih]
    by_cases h : n ∈ rest
    · simp [h]
    · simp only [h, if_false]
      by_cases hk : k = n
      · subst hk
        simp
      · have hk' : (k == n) = false := by simpa using hk
        have hnk : ¬n = k := fun e => hk e.symm
        simp [hk', hnk, List.mem_cons, h]

lemma regGet_entryRegistrations (i : ℕ) (b : AgentBehavior) (n : String) :
    regGet (entryRegistrations i b) n =
      if b.initOk && decide (some n ∈ b.toolNames) && decide (n ≠ "") then
        some (ClientId.config i)
      else none := by
  unfold entryRegistrations
  by_cases hio : b.initOk
  · by_cases h2 : some n ∈ b.toolNames
    · by_cases h3 : n = ""
      · simp [hio, h2, h3, regGet_mapSame, List.mem_filter]
      · simp [hio, h2, h3, regGet_mapSame, List.mem_filter, List.mem_filterMap]
    · simp [hio, h2, regGet_mapSame, List.mem_filter, List.mem_filterMap]
  · simp [hio, regGet]

lemma regGet_block (cfg : ServerConfig) (i : ℕ) (b : AgentBehavior) (n : String) :
    regGet (if enabledFlag cfg then entryRegistrations i b else []) n =
      if listsName cfg b n then some (ClientId.config i) else none := by
  unfold listsName
  by_cases he : enabledFlag cfg
  · simp [he, regGet_entryRegistrations]
  · simp [he, regGet]

lemma regGet_configEntries (beh : ℕ → AgentBehavior) (cfgs : List ServerConfig) (i : ℕ)
    (n : String) :
    regGet (configEntries beh cfgs i) n = (lastListing beh cfgs i n).map ClientId.config := by
  induction cfgs generalizing i with
  | nil => rfl
  | cons cfg rest ih =>
    show regGet ((if enabledFlag cfg then entryRegistrations i (beh i) else []) ++
        configEntries beh rest (i + 1)) n = _
    rw [regGet_append, ih (i + 1)]
    show _ = (match lastListing beh rest (i + 1) n with
              | some j => some j
              | none => if listsName cfg (beh i) n then some i else none).map ClientId.config
    cases h : lastListing beh rest (i + 1) n with
    | some j => simp [h]
    | none =>
      simp only [h, Option.map_none']
      rw [regGet_block]
      cases hl : listsName cfg (beh i) n <;> simp [hl]

lemma regGet_safetyEntries (sb : SafetyBehavior) (n : String) :
    regGet (safetyEntries sb) n =
      if sb.initOk ∧ n ∈ sb.toolNames then some ClientId.safety else none := by
  unfold safetyEntries
  by_cases h : sb.initOk
  · simp [h, regGet_mapSame]
  · simp [h, regGet]

lemma lastListing_none_iff (beh : ℕ → AgentBehavior) (cfgs : List ServerConfig) (i : ℕ)
    (n : String) :
    lastListing beh cfgs i n = none ↔
      ∀ j cfg, cfgs.get? j = some cfg → listsName cfg (beh (i + j)) n = false := by
  induction cfgs generalizing i with
  | nil => simp [lastListing]
  | cons cfg rest ih =>
    constructor
    · intro h j cfg' hj
      unfold lastListing at h
      cases hr : lastListing beh rest (i + 1) n with
      | some jj => rw [hr] at h; exact absurd h (by simp)
      | none =>
        rw [hr] at h
        have hhead : listsName cfg (beh i) n = false := by
          by_contra hb
          rw [show listsName cfg (beh i) n = true by simpa using hb] at h
          simp at h
        match j with
        | 0 =>
          rw [List.get?_cons_zero] at hj
          cases hj
          simpa using hhead
        | j' + 1 =>
          rw [List.get?_cons_succ] at hj
          have := (ih (i + 1)).mp hr j' cfg' hj
          rw [show i + 1 + j' = i + (j' + 1) from by omega] at this
          exact this
    · intro h
      unfold lastListing
      have hrest : lastListing beh rest (i + 1) n = none := by
        rw [ih (i + 1)]
        intro j cfg' hj
        have := h (j + 1) cfg' (by rw [List.get?_cons_succ]; exact hj)
        rw [show i + (j + 1) = i + 1 + j from by omega] at this
        exact this
      rw [hrest]
      have hhead := h 0 cfg (by rw [List.get?_cons_zero])
      rw [Nat.add_zero] at hhead
      simp [hhead]

lemma lastListing_some (beh : ℕ → AgentBehavior) (n : String) :
    ∀ (cfgs : List ServerConfig) (i j : ℕ), lastListing beh cfgs i n = some j →
    ∃ r cfg, cfgs.get? r = some cfg ∧ j = i + r ∧ listsName cfg (beh j) n = true ∧
      ∀ k cfg', cfgs.get? k = some cfg' → listsName cfg' (beh (i + k)) n = true → k ≤ r := by
  intro cfgs
  induction cfgs with
  | nil => intro i j h; simp [lastListing] at h
  | cons cfg rest ih =>
    intro i j h
    unfold lastListing at h
    cases hr : lastListing beh rest (i + 1) n with
    | some jj =>
      rw [hr] at h
      injection h with hij
      subst hij
      obtain ⟨r, cfg', hget, hj, hlist, hmax⟩ := ih (i + 1) jj hr
      refine ⟨r + 1, cfg', by rw [List.get?_cons_succ]; exact hget, by omega, hlist, ?_⟩
      intro k cfg'' hk hl
      match k with
      | 0 => omega
      | k' + 1 =>
        rw [List.get?_cons_succ] at hk
        have := hmax k' cfg'' hk (by
          rw [show i + 1 + k' = i + (k' + 1) from by omega]
          exact hl)
        omega
    | none =>
      rw [hr] at h
      by_cases hl : listsName cfg (beh i) n = true
      · rw [if_pos hl] at h
        injection h with hij
        subst hij
        refine ⟨0, cfg, by rw [List.get?_cons_zero], by omega, hl, ?_⟩
        intro k cfg' hk hlk
        match k with
        | 0 => omega
        | k' + 1 =>
          exfalso
          rw [List.get?_cons_succ] at hk
          have := (lastListing_none_iff beh rest (i + 1) n).mp hr k' cfg' hk
          rw [show i + 1 + k' = i + (k' + 1) from by omega] at this
          rw [hlk] at this
          exact absurd this (by simp)
      · rw [if_neg hl] at h
        simp at h

/-- CLAIM C1: after startup, a tool name discovered from an enabled
servers.json entry looks up to the client of the last enabled entry that
listed it (later registrations overwrite earlier ones, including the
pre-registered safety client); entries whose enabled flag is false or
absent contribute nothing, and a name never registered (neither by a
configuration entry nor by the hard-coded safety client) looks up to
none rather than raising. -/
theorem registry_last_wins (sb : SafetyBehavior) (configs : List ServerConfig)
    (beh : ℕ → AgentBehavior) (name : String) :
    ((∃ j, DiscoveredAt configs beh name j) →
      ∃ i, DiscoveredAt configs beh name i ∧
        (∀ k, DiscoveredAt configs beh name k → k ≤ i) ∧
        regGet (startupRegistry sb configs beh) name = some (ClientId.config i)) ∧
    ((∀ j, ¬ DiscoveredAt configs beh name j) →
      (sb.initOk = false ∨ name ∉ sb.toolNames) →
      regGet (startupRegistry sb configs beh) name = none) := by
  have hreg : regGet (startupRegistry sb configs beh) name =
      match regGet (configEntries beh configs 0) name with
      | some c => some c
      | none => regGet (safetyEntries sb) name := regGet_append _ _ _
  constructor
  · rintro ⟨j0, cfg0, hget0, hlist0⟩
    cases hll : lastListing beh configs 0 name with
    | none =>
      exfalso
      have := (lastListing_none_iff beh configs 0 name).mp hll j0 cfg0 hget0
      rw [Nat.zero_add, hlist0] at this
      exact absurd this (by simp)
    | some i =>
      obtain ⟨r, cfg, hget, hji, hlist, hmax⟩ := lastListing_some beh name configs 0 i hll
      rw [Nat.zero_add] at hji
      refine ⟨i, ⟨cfg, by rw [hji]; exact hget, hlist⟩, ?_, ?_⟩
      · rintro k ⟨cfg', hget', hlist'⟩
        have := hmax k cfg' hget' (by rwa [Nat.zero_add])
        omega
      · rw [hreg, regGet_configEntries, hll]
        rfl
  · intro hnone hsb
    have hll : lastListing beh configs 0 name = none := by
      rw [lastListing_none_iff]
      intro j cfg hget
      by_contra hb
      exact hnone j ⟨cfg, hget, by rw [← Nat.zero_add j]; simpa using hb⟩
    rw [hreg, regGet_configEntries, hll]
    show regGet (safetyEntries sb) name = none
    rw [regGet_safetyEntries]
    rcases hsb with h | h
    · simp [h]
    · simp [h]

/-- Witness for C1: a concrete startup with the safety client and one
enabled configuration entry; the entry wins the lookup of the tool it
lists. -/
theorem registry_last_wins_witness :
    ∃ i, DiscoveredAt [⟨"FoodServer", "http://localhost:8002", some true⟩]
        (fun _ => ⟨true, [some "food/resolveDelay"]⟩) "food/resolveDelay" i ∧
      (∀ k, DiscoveredAt [⟨"FoodServer", "http://localhost:8002", some true⟩]
        (fun _ => ⟨true, [some "food/resolveDelay"]⟩) "food/resolveDelay" k → k ≤ i) ∧
      regGet (startupRegistry ⟨true, ["safety/analyzeAudio"]⟩
          [⟨"FoodServer", "http://localhost:8002", some true⟩]
          (fun _ => ⟨true, [some "food/resolveDelay"]⟩)) "food/resolveDelay" =
        some (ClientId.config i) :=
  (registry_last_wins ⟨true, ["safety/analyzeAudio"]⟩
      [⟨"FoodServer", "http://localhost:8002", some true⟩]
      (fun _ => ⟨true, [some "food/resolveDelay"]⟩) "food/resolveDelay").1
    ⟨0, ⟨"FoodServer", "http://localhost:8002", some true⟩, rfl, by decide⟩

/-- An entry of the scanned list that the loop of
find_nearest_pending_order treats as a candidate: an order at a merchant
other than the current one, whose merchant is present in the restaurants
table, at the given distance from the driver. -/
def ScanCand (data : SystemData) (dr : ℤ) (cur : String) (l : List (String × FoodOrder))
    (oid : String) (d : ℤ) : Prop :=
  ∃ o mid m, (oid, o) ∈ l ∧ o.merchant_id = some mid ∧ mid ≠ cur ∧
    lookupId data.restaurants mid = some m ∧ d = merchantDistance m dr

lemma scanCand_cons_iff (data : SystemData) (dr : ℤ) (cur : String) (oid0 : String)
    (o0 : FoodOrder) (rest : List (String × FoodOrder)) (oid : String) (d : ℤ) :
    ScanCand data dr cur ((oid0, o0) :: rest) oid d ↔
      (oid = oid0 ∧ ∃ mid m, o0.merchant_id = some mid ∧ mid ≠ cur ∧
        lookupId data.restaurants mid = some m ∧ d = merchantDistance m dr) ∨
      ScanCand data dr cur rest oid d := by
  constructor
  · rintro ⟨o, mid, m, hmem, hmid, hne, hlk, hd⟩
    rcases List.mem_cons.mp hmem with he | hr
    · obtain ⟨h1, h2⟩ := Prod.mk.injEq .. ▸ he
      left
      exact ⟨h1, mid, m, h2 ▸ hmid, hne, hlk, hd⟩
    · right
      exact ⟨o, mid, m, hr, hmid, hne, hlk, hd⟩
  · rintro (⟨rfl, mid, m, hmid, hne, hlk, hd⟩ | ⟨o, mid, m, hmem, hmid, hne, hlk, hd⟩)
    · exact ⟨o0, mid, m, List.mem_cons_self _ _, hmid, hne, hlk, hd⟩
    · exact ⟨o, mid, m, List.mem_cons_of_mem _ hmem, hmid, hne, hlk, hd⟩

lemma scan_spec (data : SystemData) (dr : ℤ) (cur : String) :
    ∀ (l : List (String × FoodOrder)) (acc : Option (String × ℤ)),
    (scanOrders data dr cur l acc = none →
      acc = none ∧ ∀ oid d, ¬ ScanCand data dr cur l oid d) ∧
    (∀ oid d, scanOrders data dr cur l acc = some (oid, d) →
      (acc = some (oid, d) ∨ ScanCand data dr cur l oid d) ∧
      (∀ oid2 d2, ScanCand data dr cur l oid2 d2 → d ≤ d2) ∧
      (∀ a da, acc = some (a, da) → d ≤ da)) := by
  intro l
  induction l with
  | nil =>
    intro acc
    constructor
    · intro h
      refine ⟨h, ?_⟩
      rintro oid d ⟨o, mid, m, hmem, _⟩
      simp at hmem
    · intro oid d h
      refine ⟨Or.inl h, ?_, ?_⟩
      · rintro oid2 d2 ⟨o, mid, m, hmem, _⟩
        simp at hmem
      · intro a da hacc
        have h' : acc = some (oid, d) := h
        rw [hacc] at h'
        injection h' with hpair
        obtain ⟨-, h2⟩ := Prod.mk.injEq .. ▸ hpair
        omega
  | cons p rest ih =>
    obtain ⟨oid0, o0⟩ := p
    intro acc
    by_cases hcur : o0.merchant_id ≠ some cur
    · cases hm0 : o0.merchant_id.bind (lookupId data.restaurants) with
      | none =>
        have hnohead : ∀ oid d, ¬(oid = oid0 ∧ ∃ mid m, o0.merchant_id = some mid ∧
            mid ≠ cur ∧ lookupId data.restaurants mid = some m ∧ d = merchantDistance m dr) := by
          rintro oid d ⟨-, mid, m, hmid, -, hlk, -⟩
          rw [hmid] at hm0
          have hm0' : lookupId data.restaurants mid = none := hm0
          rw [hlk] at hm0'
          exact absurd hm0' (by simp)
        have hstep : scanOrders data dr cur ((oid0, o0) :: rest) acc =
            scanOrders data dr cur rest acc := by
          show scanOrders data dr cur rest
            (if o0.merchant_id ≠ some cur then
              match o0.merchant_id.bind (lookupId data.restaurants) with
              | some m =>
                match acc with
                | none => some (oid0, merchantDistance m dr)
                | some (bid, bd) =>
                  if merchantDistance m dr < bd then some (oid0, merchantDistance m dr) else acc
              | none => acc
            else acc) = scanOrders data dr cur rest acc
          rw [if_pos hcur]
          simp only [hm0]
        rw [hstep]
        constructor
        · intro h
          obtain ⟨ha, hnc⟩ := (ih acc).1 h
          refine ⟨ha, fun oid d hc => ?_⟩
          rcases (scanCand_cons_iff data dr cur oid0 o0 rest oid d).mp hc with hh | hr
          · exact hnohead oid d hh
          · exact hnc oid d hr
        · intro oid d h
          obtain ⟨h1, h2, h3⟩ := (ih acc).2 oid d h
          refine ⟨?_, ?_, h3⟩
          · rcases h1 with he | hr
            · exact Or.inl he
            · exact Or.inr ((scanCand_cons_iff data dr cur oid0 o0 rest oid d).mpr (Or.inr hr))
          · intro oid2 d2 hc
            rcases (scanCand_cons_iff data dr cur oid0 o0 rest oid2 d2).mp hc with hh | hr
            · exact absurd hh (hnohead oid2 d2)
            · exact h2 oid2 d2 hr
      | some m0 =>
        obtain ⟨mid0, hmid0, hlk0⟩ := Option.bind_eq_some.mp hm0
        have hne0 : mid0 ≠ cur := by
          intro e
          exact hcur (by rw [hmid0, e])
        have hheadiff : ∀ oid d, (oid = oid0 ∧ ∃ mid m, o0.merchant_id = some mid ∧
            mid ≠ cur ∧ lookupId data.restaurants mid = some m ∧ d = merchantDistance m dr) ↔
            (oid = oid0 ∧ d = merchantDistance m0 dr) := by
          intro oid d
          constructor
          · rintro ⟨rfl, mid, m, hmid, -, hlk, hd⟩
            rw [hmid0] at hmid
            injection hmid with hmm
            subst hmm
            rw [hlk0] at hlk
            injection hlk with hm
            subst hm
            exact ⟨rfl, hd⟩
          · rintro ⟨rfl, rfl⟩
            exact ⟨rfl, mid0, m0, hmid0, hne0, hlk0, rfl⟩
        have hheadcand : ScanCand data dr cur ((oid0, o0) :: rest) oid0 (merchantDistance m0 dr) :=
          ⟨o0, mid0, m0, List.mem_cons_self _ _, hmid0, hne0, hlk0, rfl⟩
        match acc with
        | none =>
          have hstep : scanOrders data dr cur ((oid0, o0) :: rest) none =
              scanOrders data dr cur rest (some (oid0, merchantDistance m0 dr)) := by
            show scanOrders data dr cur rest
              (if o0.merchant_id ≠ some cur then
                match o0.merchant_id.bind (lookupId data.restaurants) with
                | some m =>
                  match (none : Option (String × ℤ)) with
                  | none => some (oid0, merchantDistance m dr)
                  | some (bid, bd) =>
                    if merchantDistance m dr < bd then some (oid0, merchantDistance m dr)
                    else none
                | none => none
              else none) = _
            rw [if_pos hcur]
            simp only [hm0]
          rw [hstep]
          constructor
          · intro h
            obtain ⟨ha, -⟩ := (ih (some (oid0, merchantDistance m0 dr))).1 h
            exact absurd ha (by simp)
          · intro oid d h
            obtain ⟨h1, h2, h3⟩ := (ih (some (oid0, merchantDistance m0 dr))).2 oid d h
            have hd0 : d ≤ merchantDistance m0 dr := h3 oid0 (merchantDistance m0 dr) rfl
            refine ⟨?_, ?_, ?_⟩
            · right
              rcases h1 with he | hr
              · injection he with hpair
                obtain ⟨e1, e2⟩ := Prod.mk.injEq .. ▸ hpair
                rw [scanCand_cons_iff]
                exact Or.inl ((hheadiff oid d).mpr ⟨e1.symm, e2.symm⟩)
              · exact (scanCand_cons_iff data dr cur oid0 o0 rest oid d).mpr (Or.inr hr)
            · intro oid2 d2 hc
              rcases (scanCand_cons_iff data dr cur oid0 o0 rest oid2 d2).mp hc with hh | hr
              · obtain ⟨-, e2⟩ := (hheadiff oid2 d2).mp hh
                omega
              · exact h2 oid2 d2 hr
            · intro a da hacc
              exact absurd hacc (by simp)
        | some (b, bd) =>
          by_cases hlt : merchantDistance m0 dr < bd
          · have hstep : scanOrders data dr cur ((oid0, o0) :: rest) (some (b, bd)) =
                scanOrders data dr cur rest (some (oid0, merchantDistance m0 dr)) := by
              show scanOrders data dr cur rest
                (if o0.merchant_id ≠ some cur then
                  match o0.merchant_id.bind (lookupId data.restaurants) with
                  | some m =>
                    match (some (b, bd) : Option (String × ℤ)) with
                    | none => some (oid0, merchantDistance m dr)
                    | some (bid, bd') =>
                      if merchantDistance m dr < bd' then some (oid0, merchantDistance m dr)
                      else some (b, bd)
                  | none => some (b, bd)
                else some (b, bd)) = _
              rw [if_pos hcur]
              simp only [hm0]
              rw [if_pos hlt]
            rw [hstep]
            constructor
            · intro h
              obtain ⟨ha, -⟩ := (ih (some (oid0, merchantDistance m0 dr))).1 h
              exact absurd ha (by simp)
            · intro oid d h
              obtain ⟨h1, h2, h3⟩ := (ih (some (oid0, merchantDistance m0 dr))).2 oid d h
              have hd0 : d ≤ merchantDistance m0 dr := h3 oid0 (merchantDistance m0 dr) rfl
              refine ⟨?_, ?_, ?_⟩
              · right
                rcases h1 with he | hr
                · injection he with hpair
                  obtain ⟨e1, e2⟩ := Prod.mk.injEq .. ▸ hpair
                  rw [scanCand_cons_iff]
                  exact Or.inl ((hheadiff oid d).mpr ⟨e1.symm, e2.symm⟩)
                · exact (scanCand_cons_iff data dr cur oid0 o0 rest oid d).mpr (Or.inr hr)
              · intro oid2 d2 hc
                rcases (scanCand_cons_iff data dr cur oid0 o0 rest oid2 d2).mp hc with hh | hr
                · obtain ⟨-, e2⟩ := (hheadiff oid2 d2).mp hh
                  omega
                · exact h2 oid2 d2 hr
              · intro a da hacc
                injection hacc with hpair
                obtain ⟨-, e2⟩ := Prod.mk.injEq .. ▸ hpair
                omega
          · have hstep : scanOrders data dr cur ((oid0, o0) :: rest) (some (b, bd)) =
                scanOrders data dr cur rest (some (b, bd)) := by
              show scanOrders data dr cur rest
                (if o0.merchant_id ≠ some cur then
                  match o0.merchant_id.bind (lookupId data.restaurants) with
                  | some m =>
                    match (some (b, bd) : Option (String × ℤ)) with
                    | none => some (oid0, merchantDistance m dr)
                    | some (bid, bd') =>
                      if merchantDistance m dr < bd' then some (oid0, merchantDistance m dr)
                      else some (b, bd)
                  | none => some (b, bd)
                else some (b, bd)) = _
              rw [if_pos hcur]
              simp only [hm0]
              rw [if_neg hlt]
            rw [hstep]
            constructor
            · intro h
              obtain ⟨ha, -⟩ := (ih (some (b, bd))).1 h
              exact absurd ha (by simp)
            · intro oid d h
              obtain ⟨h1, h2, h3⟩ := (ih (some (b, bd))).2 oid d h
              have hdb : d ≤ bd := h3 b bd rfl
              refine ⟨?_, ?_, h3⟩
              · rcases h1 with he | hr
                · exact Or.inl he
                · exact Or.inr ((scanCand_cons_iff data dr cur oid0 o0 rest oid d).mpr (Or.inr hr))
              · intro oid2 d2 hc
                rcases (scanCand_cons_iff data dr cur oid0 o0 rest oid2 d2).mp hc with hh | hr
                · obtain ⟨-, e2⟩ := (hheadiff oid2 d2).mp hh
                  omega
                · exact h2 oid2 d2 hr
    · push_neg at hcur
      have hnohead : ∀ oid d, ¬(oid = oid0 ∧ ∃ mid m, o0.merchant_id = some mid ∧
          mid ≠ cur ∧ lookupId data.restaurants mid = some m ∧ d = merchantDistance m dr) := by
        rintro oid d ⟨-, mid, m, hmid, hne, -, -⟩
        rw [hcur] at hmid
        injection hmid with e
        exact hne e.symm
      have hstep : scanOrders data dr cur ((oid0, o0) :: rest) acc =
          scanOrders data dr cur rest acc := by
        show scanOrders data dr cur rest
          (if o0.merchant_id ≠ some cur then
            match o0.merchant_id.bind (lookupId data.restaurants) with
            | some m =>
              match acc with
              | none => some (oid0, merchantDistance m dr)
              | some (bid, bd) =>
                if merchantDistance m dr < bd then some (oid0, merchantDistance m dr) else acc
            | none => acc
          else acc) = scanOrders data dr cur rest acc
        rw [if_neg (by simp [hcur])]
      rw [hstep]
      constructor
      · intro h
        obtain ⟨ha, hnc⟩ := (ih acc).1 h
        refine ⟨ha, fun oid d hc => ?_⟩
        rcases (scanCand_cons_iff data dr cur oid0 o0 rest oid d).mp hc with hh | hr
        · exact hnohead oid d hh
        · exact hnc oid d hr
      · intro oid d h
        obtain ⟨h1, h2, h3⟩ := (ih acc).2 oid d h
        refine ⟨?_, ?_, h3⟩
        · rcases h1 with he | hr
          · exact Or.inl he
          · exact Or.inr ((scanCand_cons_iff data dr cur oid0 o0 rest oid d).mpr (Or.inr hr))
        · intro oid2 d2 hc
          rcases (scanCand_cons_iff data dr cur oid0 o0 rest oid2 d2).mp hc with hh | hr
          · exact absurd hh (hnohead oid2 d2)
          · exact h2 oid2 d2 hr

lemma lookupId_eq_of_nodup {α : Type} (l : List (String × α))
    (hnd : (l.map Prod.fst).Nodup) (k : String) (v : α) (hmem : (k, v) ∈ l) :
    lookupId l k = some v := by
  induction l with
  | nil => simp at hmem
  | cons p rest ih =>
    obtain ⟨k', v'⟩ := p
    rcases List.mem_cons.mp hmem with he | hr
    · obtain ⟨e1, e2⟩ := Prod.mk.injEq .. ▸ he
      subst e1
      subst e2
      simp [lookupId]
    · have hk : ¬(k' == k) = true := by
        intro e
        have ekk : k' = k := by simpa using e
        subst ekk
        have hkin : k' ∈ rest.map Prod.fst := List.mem_map_of_mem Prod.fst hr
        rw [List.map_cons, List.nodup_cons] at hnd
        exact hnd.1 hkin
      rw [List.map_cons, List.nodup_cons] at hnd
      simp only [lookupId, hk, if_false]
      exact ih hnd.2 hr

lemma mem_pendingOrders_iff (data : SystemData) (p : String × FoodOrder) :
    p ∈ pendingOrders data ↔ p ∈ data.orders ∧ p.2.status = "Awaiting Pickup" := by
  simp [pendingOrders, List.mem_filter]

lemma find_nearest_noPending_eq (data : SystemData) (dr : ℤ) (cur : String)
    (hemp : (pendingOrders data).isEmpty = true) :
    find_nearest_pending_order data dr cur = .ok .noPending := by
  unfold find_nearest_pending_order
  rw [if_pos hemp]

lemma find_nearest_noSuitable_eq (data : SystemData) (dr : ℤ) (cur : String)
    (hemp : ¬(pendingOrders data).isEmpty = true)
    (hscan : scanOrders data dr cur (pendingOrders data) none = none) :
    find_nearest_pending_order data dr cur = .ok .noSuitable := by
  unfold find_nearest_pending_order
  rw [if_neg hemp, hscan]

lemma find_nearest_found_eq (data : SystemData) (dr : ℤ) (cur oid : String) (d : ℤ)
    (o : FoodOrder) (mid : String) (m : Merchant)
    (hemp : ¬(pendingOrders data).isEmpty = true)
    (hscan : scanOrders data dr cur (pendingOrders data) none = some (oid, d))
    (hoidne : oid ≠ "") (hpl : lookupId (pendingOrders data) oid = some o)
    (hmid : o.merchant_id = some mid) (hlk : lookupId data.restaurants mid = some m) :
    find_nearest_pending_order data dr cur = .ok (.found oid m.name d) := by
  unfold find_nearest_pending_order
  rw [if_neg hemp, hscan]
  show (if oid ≠ "" then
        match lookupId (pendingOrders data) oid with
        | none => Except.error "KeyError"
        | some o =>
          match o.merchant_id with
          | none => Except.error "KeyError"
          | some mid =>
            match lookupId data.restaurants mid with
            | none => Except.error "AttributeError"
            | some m => Except.ok (NearestResult.found oid m.name d)
      else Except.ok NearestResult.noSuitable) = Except.ok (NearestResult.found oid m.name d)
  rw [if_pos hoidne, hpl]
  show (match o.merchant_id with
        | none => Except.error "KeyError"
        | some mid =>
          match lookupId data.restaurants mid with
          | none => Except.error "AttributeError"
          | some m => Except.ok (NearestResult.found oid m.name d)) =
      Except.ok (NearestResult.found oid m.name d)
  rw [hmid]
  show (match lookupId data.restaurants mid with
        | none => Except.error "AttributeError"
        | some m => Except.ok (NearestResult.found oid m.name d)) =
      Except.ok (NearestResult.found oid m.name d)
  rw [hlk]

/-- CLAIM C10: under the dictionary model of system_data.json (order ids
unique and non-empty), find_nearest_pending_order never raises; it
returns the no-pending-orders answer exactly when no order awaits pickup;
it returns the no-suitable-order answer when every pending order sits at
the current merchant or at a merchant missing from the restaurants
table; a found answer names an awaiting-pickup order at a known merchant
other than the current one whose distance to the driver is minimal among
all such orders; and whenever such an order exists, a found answer is
produced. -/
theorem nearest_pending_order_spec (data : SystemData) (dr : ℤ) (cur : String)
    (hnd : (data.orders.map Prod.fst).Nodup) (hne : "" ∉ data.orders.map Prod.fst) :
    (∃ r, find_nearest_pending_order data dr cur = .ok r) ∧
    ((∀ p ∈ data.orders, p.2.status ≠ "Awaiting Pickup") →
      find_nearest_pending_order data dr cur = .ok .noPending) ∧
    ((∃ p ∈ data.orders, p.2.status = "Awaiting Pickup") →
     (∀ p ∈ data.orders, p.2.status = "Awaiting Pickup" →
        p.2.merchant_id = some cur ∨
        (∀ mid, p.2.merchant_id = some mid → lookupId data.restaurants mid = none)) →
      find_nearest_pending_order data dr cur = .ok .noSuitable) ∧
    (∀ oid mname d, find_nearest_pending_order data dr cur = .ok (.found oid mname d) →
      ∃ o mid m, (oid, o) ∈ data.orders ∧ o.status = "Awaiting Pickup" ∧
        o.merchant_id = some mid ∧ mid ≠ cur ∧ lookupId data.restaurants mid = some m ∧
        mname = m.name ∧ d = merchantDistance m dr ∧
        ∀ oid2 o2 mid2 m2, (oid2, o2) ∈ data.orders → o2.status = "Awaiting Pickup" →
          o2.merchant_id = some mid2 → mid2 ≠ cur →
          lookupId data.restaurants mid2 = some m2 → d ≤ merchantDistance m2 dr) ∧
    ((∃ oid o mid m, (oid, o) ∈ data.orders ∧ o.status = "Awaiting Pickup" ∧
        o.merchant_id = some mid ∧ mid ≠ cur ∧ lookupId data.restaurants mid = some m) →
      ∃ oid mname d, find_nearest_pending_order data dr cur = .ok (.found oid mname d)) := by
  have hndp : ((pendingOrders data).map Prod.fst).Nodup :=
    ((List.filter_sublist data.orders).map Prod.fst).nodup hnd
  have hcand_orders : ∀ oid d, ScanCand data dr cur (pendingOrders data) oid d →
      ∃ o mid m, (oid, o) ∈ data.orders ∧ o.status = "Awaiting Pickup" ∧
        o.merchant_id = some mid ∧ mid ≠ cur ∧ lookupId data.restaurants mid = some m ∧
        d = merchantDistance m dr := by
    rintro oid d ⟨o, mid, m, hmem, hmid, hnec, hlk, hd⟩
    obtain ⟨ho, hst⟩ := (mem_pendingOrders_iff data (oid, o)).mp hmem
    exact ⟨o, mid, m, ho, hst, hmid, hnec, hlk, hd⟩
  have horders_cand : ∀ oid o mid m, (oid, o) ∈ data.orders → o.status = "Awaiting Pickup" →
      o.merchant_id = some mid → mid ≠ cur → lookupId data.restaurants mid = some m →
      ScanCand data dr cur (pendingOrders data) oid (merchantDistance m dr) := by
    intro oid o mid m ho hst hmid hnec hlk
    exact ⟨o, mid, m, (mem_pendingOrders_iff data (oid, o)).mpr ⟨ho, hst⟩, hmid, hnec, hlk, rfl⟩
  -- the found branch, shared by several conjuncts
  have hfound : ∀ oid d, scanOrders data dr cur (pendingOrders data) none = some (oid, d) →
      ∃ o mid m, (oid, o) ∈ data.orders ∧ o.status = "Awaiting Pickup" ∧
        o.merchant_id = some mid ∧ mid ≠ cur ∧ lookupId data.restaurants mid = some m ∧
        oid ≠ "" ∧ lookupId (pendingOrders data) oid = some o ∧ d = merchantDistance m dr := by
    intro oid d hscan
    obtain ⟨h1, h2, -⟩ := (scan_spec data dr cur (pendingOrders data) none).2 oid d hscan
    have hc : ScanCand data dr cur (pendingOrders data) oid d := by
      rcases h1 with he | hr
      · exact absurd he (by simp)
      · exact hr
    obtain ⟨o, mid, m, hmem, hmid, hnec, hlk, hd⟩ := hc
    obtain ⟨ho, hst⟩ := (mem_pendingOrders_iff data (oid, o)).mp hmem
    have hoidne : oid ≠ "" := by
      intro e
      subst e
      exact hne (List.mem_map_of_mem Prod.fst ho)
    exact ⟨o, mid, m, ho, hst, hmid, hnec, hlk, hoidne,
      lookupId_eq_of_nodup (pendingOrders data) hndp oid o hmem, hd⟩
  refine ⟨?_, ?_, ?_, ?_, ?_⟩
  · -- never raises
    by_cases hemp : (pendingOrders data).isEmpty
    · exact ⟨.noPending, find_nearest_noPending_eq data dr cur hemp⟩
    · cases hscan : scanOrders data dr cur (pendingOrders data) none with
      | none => exact ⟨.noSuitable, find_nearest_noSuitable_eq data dr cur hemp hscan⟩
      | some pr =>
        obtain ⟨oid, d⟩ := pr
        obtain ⟨o, mid, m, -, -, hmid, -, hlk, hoidne, hpl, -⟩ := hfound oid d hscan
        exact ⟨.found oid m.name d,
          find_nearest_found_eq data dr cur oid d o mid m hemp hscan hoidne hpl hmid hlk⟩
  · -- no pending orders
    intro h
    have hemp : (pendingOrders data).isEmpty = true := by
      rw [List.isEmpty_iff]
      rw [pendingOrders, List.filter_eq_nil_iff]
      intro p hp
      simp only [beq_iff_eq]
      exact h p hp
    exact find_nearest_noPending_eq data dr cur hemp
  · -- pending exists but none suitable
    rintro ⟨p, hp, hst⟩ hunsuit
    have hemp : ¬(pendingOrders data).isEmpty = true := by
      rw [List.isEmpty_iff]
      intro hnil
      have : p ∈ pendingOrders data := (mem_pendingOrders_iff data p).mpr ⟨hp, hst⟩
      rw [hnil] at this
      simp at this
    cases hscan : scanOrders data dr cur (pendingOrders data) none with
    | none => exact find_nearest_noSuitable_eq data dr cur hemp hscan
    | some pr =>
      obtain ⟨oid, d⟩ := pr
      obtain ⟨o, mid, m, ho, hsto, hmid, hnec, hlk, -, -, -⟩ := hfound oid d hscan
      rcases hunsuit (oid, o) ho hsto with hcur | hnolk
      · exact absurd (hmid.symm.trans hcur) (by
          intro e
          injection e with e'
          exact hnec e')
      · rw [hnolk mid hmid] at hlk
        exact absurd hlk (by simp)
  · -- a found answer is sound and minimal
    intro oid mname d hres
    by_cases hemp : (pendingOrders data).isEmpty
    · rw [find_nearest_noPending_eq data dr cur hemp] at hres
      injection hres with hr
      exact absurd hr (by simp)
    · cases hscan : scanOrders data dr cur (pendingOrders data) none with
      | none =>
        rw [find_nearest_noSuitable_eq data dr cur hemp hscan] at hres
        injection hres with hr
        exact absurd hr (by simp)
      | some pr =>
        obtain ⟨oid1, d1⟩ := pr
        obtain ⟨o, mid, m, ho, hst, hmid, hnec, hlk, hoidne, hpl, hd⟩ := hfound oid1 d1 hscan
        rw [find_nearest_found_eq data dr cur oid1 d1 o mid m hemp hscan hoidne hpl hmid hlk]
          at hres
        injection hres with hr
        obtain ⟨e1, e2, e3⟩ := NearestResult.found.injEq .. ▸ hr
        subst e1
        subst e2
        subst e3
        refine ⟨o, mid, m, ho, hst, hmid, hnec, hlk, rfl, hd, ?_⟩
        intro oid2 o2 mid2 m2 ho2 hst2 hmid2 hnec2 hlk2
        obtain ⟨-, hmin, -⟩ := (scan_spec data dr cur (pendingOrders data) none).2 oid1 d1 hscan
        exact hmin oid2 (merchantDistance m2 dr)
          (horders_cand oid2 o2 mid2 m2 ho2 hst2 hmid2 hnec2 hlk2)
  · -- a suitable order exists, so a found answer is produced
    rintro ⟨oid, o, mid, m, ho, hst, hmid, hnec, hlk⟩
    have hmemp : (oid, o) ∈ pendingOrders data :=
      (mem_pendingOrders_iff data (oid, o)).mpr ⟨ho, hst⟩
    have hemp : ¬(pendingOrders data).isEmpty = true := by
      rw [List.isEmpty_iff]
      intro hnil
      rw [hnil] at hmemp
      simp at hmemp
    cases hscan : scanOrders data dr cur (pendingOrders data) none with
    | none =>
      obtain ⟨-, hnc⟩ := (scan_spec data dr cur (pendingOrders data) none).1 hscan
      exact absurd (horders_cand oid o mid m ho hst hmid hnec hlk)
        (hnc oid (merchantDistance m dr))
    | some pr =>
      obtain ⟨oid1, d1⟩ := pr
      obtain ⟨o1, mid1, m1, -, -, hmid1, -, hlk1, hoidne1, hpl1, -⟩ := hfound oid1 d1 hscan
      exact ⟨oid1, m1.name, d1,
        find_nearest_found_eq data dr cur oid1 d1 o1 mid1 m1 hemp hscan hoidne1 hpl1 hmid1 hlk1⟩

/-- Witness for C10: a concrete snapshot with two pending orders; the
closer one at a different merchant is found at its distance. -/
theorem nearest_pending_order_spec_witness :
    ∃ o mid m, ("O2", o) ∈ (SystemData.mk
        [("O1", ⟨"Awaiting Pickup", some "M1"⟩), ("O2", ⟨"Awaiting Pickup", some "M2"⟩)]
        [("M1", ⟨"Curry Corner", some 0⟩), ("M2", ⟨"Spice Hub", some 7⟩)]).orders ∧
      o.status = "Awaiting Pickup" ∧ o.merchant_id = some mid ∧ mid ≠ "M1" ∧
      lookupId (SystemData.mk
        [("O1", ⟨"Awaiting Pickup", some "M1"⟩), ("O2", ⟨"Awaiting Pickup", some "M2"⟩)]
        [("M1", ⟨"Curry Corner", some 0⟩), ("M2", ⟨"Spice Hub", some 7⟩)]).restaurants mid =
        some m ∧ "Spice Hub" = m.name ∧ (2 : ℤ) = merchantDistance m 5 ∧
      ∀ oid2 o2 mid2 m2, (oid2, o2) ∈ (SystemData.mk
          [("O1", ⟨"Awaiting Pickup", some "M1"⟩), ("O2", ⟨"Awaiting Pickup", some "M2"⟩)]
          [("M1", ⟨"Curry Corner", some 0⟩), ("M2", ⟨"Spice Hub", some 7⟩)]).orders →
        o2.status = "Awaiting Pickup" → o2.merchant_id = some mid2 → mid2 ≠ "M1" →
        lookupId (SystemData.mk
          [("O1", ⟨"Awaiting Pickup", some "M1"⟩), ("O2", ⟨"Awaiting Pickup", some "M2"⟩)]
          [("M1", ⟨"Curry Corner", some 0⟩), ("M2", ⟨"Spice Hub", some 7⟩)]).restaurants mid2 =
          some m2 → (2 : ℤ) ≤ merchantDistance m2 5 :=
  (nearest_pending_order_spec (SystemData.mk
      [("O1", ⟨"Awaiting Pickup", some "M1"⟩), ("O2", ⟨"Awaiting Pickup", some "M2"⟩)]
      [("M1", ⟨"Curry Corner", some 0⟩), ("M2", ⟨"Spice Hub", some 7⟩)]) 5 "M1"
    (by decide) (by decide)).2.2.2.1 "O2" "Spice Hub" 2 (by rfl)

end Logia
